import Mathlib

/-!
Verification of the real-time subscription and fan-out subsystem of the
poly-sdk repository.  The repository ships only example callers of the
service (examples 07 and 09); the service itself is therefore modelled
from the design document, while the interface shapes visible in the
example callers (callback configuration, subscription handle fields) are
taken from the example source.  All definitions are executable.
-/

namespace PolySdk

/-- Price Snapshot: one per instrument, overwritten wholesale on each
price message.  Fields follow the data model section of the design
document and the usage in example 07 (update.assetId, update.price,
update.midpoint, update.spread). -/
structure PriceSnapshot where
  assetId : String
  price : ℚ
  midpoint : ℚ
  spread : ℚ
  timestamp : ℕ
deriving DecidableEq, Repr

/-- One level of an order book, as read in example 07 (bestBid.price,
bestBid.size). -/
structure BookLevel where
  price : ℚ
  size : ℚ
deriving DecidableEq, Repr

/-- Book Snapshot: bid and ask levels best-first, replaced wholesale per
update. -/
structure BookSnapshot where
  assetId : String
  bids : List BookLevel
  asks : List BookLevel
  timestamp : ℕ
deriving DecidableEq, Repr

inductive TradeSide where
  | buy
  | sell
deriving DecidableEq, Repr

/-- Trade Event: transient, forwarded but never cached. -/
structure TradeEvent where
  assetId : String
  side : TradeSide
  size : ℚ
  price : ℚ
  timestamp : ℕ
deriving DecidableEq, Repr

/-- Association list lookup keyed by instrument identifier. -/
def alookup {α : Type} (k : String) : List (String × α) → Option α
  | [] => none
  | kv :: rest => if kv.1 = k then some kv.2 else alookup k rest

/-- Association list update: replaces the binding for the key in place,
appending a new binding when the key is absent. -/
def aset {α : Type} (k : String) (v : α) : List (String × α) → List (String × α)
  | [] => [(k, v)]
  | kv :: rest => if kv.1 = k then (k, v) :: rest else kv :: aset k v rest

/-- Modelled from the spec: the monotonic-timestamp cache update for
price messages.  An update whose timestamp is at most the cached one is
dropped (testable property: messages with a timestamp at most the
current cached timestamp are no-ops); otherwise the snapshot is replaced
as a unit. -/
def applyPriceUpdate (cache : List (String × PriceSnapshot)) (p : PriceSnapshot) :
    List (String × PriceSnapshot) :=
  match alookup p.assetId cache with
  | some old => if p.timestamp ≤ old.timestamp then cache else aset p.assetId p cache
  | none => aset p.assetId p cache

/-- Modelled from the spec: the same monotonic replacement discipline for
book snapshots. -/
def applyBookUpdate (cache : List (String × BookSnapshot)) (b : BookSnapshot) :
    List (String × BookSnapshot) :=
  match alookup b.assetId cache with
  | some old => if b.timestamp ≤ old.timestamp then cache else aset b.assetId b cache
  | none => aset b.assetId b cache

/-- Folding a whole sequence of price messages through the cache. -/
def runCache (cache : List (String × PriceSnapshot)) (msgs : List PriceSnapshot) :
    List (String × PriceSnapshot) :=
  msgs.foldl applyPriceUpdate cache

/-- One cache cell evolving under the monotonic rule: keep the current
snapshot unless the new message is strictly newer. -/
def step1 (acc : Option PriceSnapshot) (p : PriceSnapshot) : Option PriceSnapshot :=
  match acc with
  | none => some p
  | some c => if p.timestamp ≤ c.timestamp then some c else some p

/-- The message achieves the maximum timestamp of the list. -/
def isMaxIn (msgs : List PriceSnapshot) (p : PriceSnapshot) : Bool :=
  msgs.all (fun q => decide (q.timestamp ≤ p.timestamp))

/-- The first message of the sequence whose timestamp is the maximum of
the whole sequence. -/
def firstMaxSnapshot (msgs : List PriceSnapshot) : Option PriceSnapshot :=
  msgs.find? (isMaxIn msgs)

/-- The claim wording: the last message of the sequence whose timestamp
is the maximum seen.  Used to refute the claim as stated. -/
def lastMaxSnapshot (msgs : List PriceSnapshot) : Option PriceSnapshot :=
  msgs.reverse.find? (isMaxIn msgs)

/-- Callback configuration, shaped as in example 07: five optional named
handlers onPriceUpdate, onBookUpdate, onLastTrade, onPairUpdate and
onError.  Only the presence of each handler matters for dispatch, so the
configuration is modelled as presence flags; the effect of an invocation
is recorded as an emitted Event below. -/
structure Callbacks where
  hasOnPriceUpdate : Bool
  hasOnBookUpdate : Bool
  hasOnLastTrade : Bool
  hasOnPairUpdate : Bool
  hasOnError : Bool
deriving DecidableEq, Repr

/-- Subscription lifecycle state from the design document. -/
inductive SubState where
  | active
  | unsubscribing
  | closed
deriving DecidableEq, Repr

/-- Internal registry entry for one local subscription. -/
structure SubEntry where
  id : ℕ
  assetIds : List String
  pair : Option (String × String)
  callbacks : Callbacks
  state : SubState
deriving DecidableEq, Repr

/-- The public subscription handle, with the fields the example caller
reads: subscription.id and subscription.assetIds (an ordered sequence);
unsubscribe is the service operation keyed by the id. -/
structure Subscription where
  id : ℕ
  assetIds : List String
deriving DecidableEq, Repr

/-- Modelled from the spec: state of the Subscription and Fan-out
Service: subscriber registry in registration order, per-instrument
reference counts, latest-value caches, and the id counter for handles. -/
structure ServiceState where
  subs : List SubEntry
  refCounts : List (String × ℕ)
  priceCache : List (String × PriceSnapshot)
  bookCache : List (String × BookSnapshot)
  nextId : ℕ
deriving DecidableEq, Repr

def initState : ServiceState := ⟨[], [], [], [], 0⟩

/-- Error taxonomy entry relevant to the subscribe calls. -/
inductive SdkError where
  | invalidArgument (msg : String)
  | connectionError (msg : String)
deriving DecidableEq, Repr

/-- Observable effects of the service: callback invocations fanned out
to subscribers, error routing, and upstream control frames. -/
inductive Event where
  | priceCb (subId : ℕ) (p : PriceSnapshot)
  | bookCb (subId : ℕ) (b : BookSnapshot)
  | tradeCb (subId : ℕ) (t : TradeEvent)
  | pairCb (subId : ℕ) (priceYes priceNo spread : ℚ)
  | errorCb (subId : ℕ) (msg : String)
  | warn (msg : String)
  | frameSubscribe (assetId : String)
  | frameUnsubscribe (assetId : String)
deriving DecidableEq, Repr

/-- Inbound messages decoded by the Feed Connection; reconnected is the
ConnectionStateChange=Reconnected notification. -/
inductive InboundMsg where
  | priceChange (p : PriceSnapshot)
  | bookChange (b : BookSnapshot)
  | lastTrade (t : TradeEvent)
  | reconnected
deriving DecidableEq, Repr

def msgAsset : InboundMsg → Option String
  | InboundMsg.priceChange p => some p.assetId
  | InboundMsg.bookChange b => some b.assetId
  | InboundMsg.lastTrade t => some t.assetId
  | InboundMsg.reconnected => none

/-- Current reference count of an instrument (0 when untracked). -/
def refCount (st : ServiceState) (i : String) : ℕ :=
  (alookup i st.refCounts).getD 0

/-- Modelled from the spec: increment the reference count of one
instrument; the Bool reports whether the instrument was untracked, in
which case an upstream subscribe frame must be issued. -/
def incRef (rc : List (String × ℕ)) (i : String) : List (String × ℕ) × Bool :=
  match alookup i rc with
  | none => (aset i 1 rc, true)
  | some 0 => (aset i 1 rc, true)
  | some c => (aset i (c + 1) rc, false)

/-- Modelled from the spec: subscribeMarket registers a Pair Binding on
two instruments.  The identifiers must be non-empty and distinct,
otherwise the call fails synchronously with InvalidArgument; on success
the entry is appended to the registry (registration order), reference
counts are incremented, and an upstream subscribe frame is issued for
each instrument that was not already tracked. -/
def subscribeMarket (st : ServiceState) (a b : String) (cbs : Callbacks) :
    Except SdkError (ServiceState × Subscription × List Event) :=
  if a = "" ∨ b = "" ∨ a = b then
    Except.error (SdkError.invalidArgument "instrument ids must be non-empty and distinct")
  else
    let entry : SubEntry := ⟨st.nextId, [a, b], some (a, b), cbs, SubState.active⟩
    let r1 := incRef st.refCounts a
    let r2 := incRef r1.1 b
    let frames := (if r1.2 then [Event.frameSubscribe a] else []) ++
      (if r2.2 then [Event.frameSubscribe b] else [])
    Except.ok ({ st with
      subs := st.subs ++ [entry],
      refCounts := r2.1,
      nextId := st.nextId + 1 }, ⟨st.nextId, [a, b]⟩, frames)

/-- Modelled from the spec: the single-instrument variant, no pair
semantics. -/
def subscribeInstrument (st : ServiceState) (i : String) (cbs : Callbacks) :
    ServiceState × Subscription × List Event :=
  let entry : SubEntry := ⟨st.nextId, [i], none, cbs, SubState.active⟩
  let r1 := incRef st.refCounts i
  ({ st with
    subs := st.subs ++ [entry],
    refCounts := r1.1,
    nextId := st.nextId + 1 }, ⟨st.nextId, [i]⟩,
    if r1.2 then [Event.frameSubscribe i] else [])

/-- Mark the first active entry with the given id as closed. -/
def markClosed (sid : ℕ) : List SubEntry → List SubEntry
  | [] => []
  | e :: rest =>
    if e.id = sid ∧ e.state = SubState.active then { e with state := SubState.closed } :: rest
    else e :: markClosed sid rest

/-- Decrement the reference counts for a list of instruments, emitting
an upstream unsubscribe frame for each count that reaches zero. -/
def decRefs (assets : List String) (rc : List (String × ℕ)) :
    List (String × ℕ) × List Event :=
  match assets with
  | [] => (rc, [])
  | a :: rest =>
    let c := (alookup a rc).getD 0
    let r := decRefs rest (aset a (c - 1) rc)
    (r.1, (if c ≤ 1 then [Event.frameUnsubscribe a] else []) ++ r.2)

/-- Modelled from the spec: unsubscribe decrements the reference count
of each instrument of the subscription and issues the upstream
unsubscribe frame only when a count reaches zero; the entry becomes
Closed, further dispatch attempts to it are no-ops, and the caches are
left untouched. -/
def unsubscribe (st : ServiceState) (sid : ℕ) : ServiceState × List Event :=
  match st.subs.find? (fun e => e.id == sid && e.state == SubState.active) with
  | none => (st, [])
  | some e =>
    let r := decRefs e.assetIds st.refCounts
    ({ st with subs := markClosed sid st.subs, refCounts := r.1 }, r.2)

/-- An active subscription registered on this instrument with a price
handler installed. -/
def subWantsPrice (i : String) (e : SubEntry) : Bool :=
  e.state == SubState.active && e.assetIds.contains i && e.callbacks.hasOnPriceUpdate

def subWantsBook (i : String) (e : SubEntry) : Bool :=
  e.state == SubState.active && e.assetIds.contains i && e.callbacks.hasOnBookUpdate

def subWantsTrade (i : String) (e : SubEntry) : Bool :=
  e.state == SubState.active && e.assetIds.contains i && e.callbacks.hasOnLastTrade

/-- Invocation of the price handlers of the given entries, in list
order.  The behaviour argument records which handler invocations raise:
a raising handler is isolated, its failure routed to the onError handler
of the same subscription when present and surfaced as a process-wide
warning otherwise, and the pass continues with the next entry. -/
def cbEventsFor (beh : ℕ → Option String) (p : PriceSnapshot) : List SubEntry → List Event
  | [] => []
  | e :: rest =>
    Event.priceCb e.id p ::
      ((match beh e.id with
        | some m => [if e.callbacks.hasOnError then Event.errorCb e.id m else Event.warn m]
        | none => []) ++ cbEventsFor beh p rest)

/-- Modelled from the spec: step 4 of the dispatch algorithm.  For every
subscription holding a Pair Binding on the updated instrument whose two
sides both have a cached Price Snapshot, emit the synthesized pair event
with spread = priceYes + priceNo. -/
def pairEventsFor (cache : List (String × PriceSnapshot)) (i : String) :
    List SubEntry → List Event
  | [] => []
  | e :: rest =>
    (match e.pair with
     | some yn =>
       if e.state = SubState.active ∧ (i = yn.1 ∨ i = yn.2) ∧
           e.callbacks.hasOnPairUpdate = true then
         match alookup yn.1 cache, alookup yn.2 cache with
         | some py, some pn => [Event.pairCb e.id py.price pn.price (py.price + pn.price)]
         | _, _ => []
       else []
     | none => []) ++ pairEventsFor cache i rest

/-- Modelled from the spec: dispatch of one price message.  A frame for
an instrument with zero local reference count is dropped silently;
otherwise the monotonic cache update is applied, every matching active
handler is invoked in registration order, and pair events are derived
from the updated cache. -/
def dispatchPrice (beh : ℕ → Option String) (st : ServiceState) (p : PriceSnapshot) :
    ServiceState × List Event :=
  if refCount st p.assetId = 0 then (st, [])
  else
    let cache2 := applyPriceUpdate st.priceCache p
    ({ st with priceCache := cache2 },
      cbEventsFor beh p (st.subs.filter (subWantsPrice p.assetId)) ++
        pairEventsFor cache2 p.assetId st.subs)

/-- Modelled from the spec: dispatch of one book message. -/
def dispatchBook (st : ServiceState) (b : BookSnapshot) : ServiceState × List Event :=
  if refCount st b.assetId = 0 then (st, [])
  else
    ({ st with bookCache := applyBookUpdate st.bookCache b },
      (st.subs.filter (subWantsBook b.assetId)).map (fun e => Event.bookCb e.id b))

/-- Modelled from the spec: dispatch of one trade message; trades are
forwarded, never cached. -/
def dispatchTrade (st : ServiceState) (t : TradeEvent) : ServiceState × List Event :=
  if refCount st t.assetId = 0 then (st, [])
  else (st, (st.subs.filter (subWantsTrade t.assetId)).map (fun e => Event.tradeCb e.id t))

/-- Upstream subscribe frames for every tracked instrument, in map
order. -/
def subscribeFrames : List (String × ℕ) → List Event
  | [] => []
  | kv :: rest =>
    if 0 < kv.2 then Event.frameSubscribe kv.1 :: subscribeFrames rest
    else subscribeFrames rest

/-- Modelled from the spec: on a Reconnected notification the service
re-issues a subscribe control frame for every instrument it currently
tracks; no local subscription is created or altered. -/
def handleReconnected (st : ServiceState) : ServiceState × List Event :=
  (st, subscribeFrames st.refCounts)

/-- Modelled from the spec: classify and dispatch one inbound message. -/
def dispatchMsg (beh : ℕ → Option String) (st : ServiceState) :
    InboundMsg → ServiceState × List Event
  | InboundMsg.priceChange p => dispatchPrice beh st p
  | InboundMsg.bookChange b => dispatchBook st b
  | InboundMsg.lastTrade t => dispatchTrade st t
  | InboundMsg.reconnected => handleReconnected st

/-- Process a whole inbound stream in arrival order, concatenating the
emitted events. -/
def run (beh : ℕ → Option String) (st : ServiceState) :
    List InboundMsg → ServiceState × List Event
  | [] => (st, [])
  | m :: rest =>
    let r := dispatchMsg beh st m
    let r2 := run beh r.1 rest
    (r2.1, r.2 ++ r2.2)

/-- Synchronous cache read, as exposed to callers. -/
def getPrice (st : ServiceState) (i : String) : Option PriceSnapshot :=
  alookup i st.priceCache

/-- Synchronous whole-cache read, as exposed to callers. -/
def getAllPrices (st : ServiceState) : List (String × PriceSnapshot) :=
  st.priceCache

/-- Registry well-formedness: every registered id is below the id
counter, so freshly issued ids are unique. -/
def WfIds (st : ServiceState) : Prop :=
  ∀ e ∈ st.subs, e.id < st.nextId

/-- The instrument a delivery event concerns; pair events, error routing
and control frames are not per-message deliveries. -/
def deliveryAsset : Event → Option String
  | Event.priceCb _ q => some q.assetId
  | Event.bookCb _ bk => some bk.assetId
  | Event.tradeCb _ t => some t.assetId
  | _ => none

/-- The subsequence of callback deliveries concerning one instrument,
in emission order. -/
def deliveriesFor (i : String) (evs : List Event) : List Event :=
  evs.filter (fun ev => deliveryAsset ev == some i)

/-- The fan-out a single message owes its instrument: one callback
invocation per matching active subscription, in registry (registration)
order, or nothing when the instrument is untracked. -/
def expectedDeliveries (st : ServiceState) : InboundMsg → List Event
  | InboundMsg.priceChange p =>
    if refCount st p.assetId = 0 then []
    else (st.subs.filter (subWantsPrice p.assetId)).map (fun e => Event.priceCb e.id p)
  | InboundMsg.bookChange b =>
    if refCount st b.assetId = 0 then []
    else (st.subs.filter (subWantsBook b.assetId)).map (fun e => Event.bookCb e.id b)
  | InboundMsg.lastTrade t =>
    if refCount st t.assetId = 0 then []
    else (st.subs.filter (subWantsTrade t.assetId)).map (fun e => Event.tradeCb e.id t)
  | InboundMsg.reconnected => []

/-- The deliveries a whole stream owes one instrument: message by
message in arrival order, each fanned out in registration order. -/
def expectedRun (st : ServiceState) (i : String) : List InboundMsg → List Event
  | [] => []
  | m :: rest =>
    (if msgAsset m = some i then expectedDeliveries st m else []) ++ expectedRun st i rest

/-- Projection of an event list onto price-callback deliveries
(subscription id and delivered snapshot). -/
def toPriceDelivery : Event → Option (ℕ × PriceSnapshot)
  | Event.priceCb sid q => some (sid, q)
  | _ => none

/-- Fields of the subscription handle read by the source example
(part_000 line 81: subscription.id, line 82: subscription.assetIds,
line 111: subscription.unsubscribe). -/
def subscriptionHandleFields : List String := ["id", "assetIds", "unsubscribe"]

/-- Handle fields as the claim words them. -/
def subscriptionHandleFields_claim : List String := ["id", "instrumentIds", "unsubscribe"]

/-- Parameter count of the onPriceUpdate handler in the source example
(part_000 line 56: a single update record). -/
def onPriceUpdateParamCount : ℕ := 1

/-- Parameter count of onPriceUpdate as the claim words it:
fn(instrumentId, price, midpoint, spread, timestamp). -/
def onPriceUpdateParamCount_claim : ℕ := 5

/-- A value produced asynchronously: the caller obtains it only by
resolving (awaiting) the promise.  Models the await calls of the source
example (part_000 lines 55 and 111). -/
structure Promise (α : Type) where
  resolve : Unit → α

def Promise.await {α : Type} (pr : Promise α) : α := pr.resolve ()

/-- subscribeMarket as exposed at the public interface: the example
caller awaits it, so it returns a promise of the subscription handle. -/
def subscribeMarketAsync (st : ServiceState) (a b : String) (cbs : Callbacks) :
    Promise (Except SdkError (ServiceState × Subscription × List Event)) :=
  ⟨fun _ => subscribeMarket st a b cbs⟩

/-- unsubscribe as exposed on the handle: the example caller awaits it,
so it returns a promise of the completed teardown. -/
def unsubscribeAsync (st : ServiceState) (sid : ℕ) : Promise (ServiceState × List Event) :=
  ⟨fun _ => unsubscribe st sid⟩

/-- All five handlers installed. -/
def cbsAll : Callbacks := ⟨true, true, true, true, true⟩

/-- Only onPriceUpdate installed. -/
def cbsPriceOnly : Callbacks := ⟨true, false, false, false, false⟩

/-- Only onPairUpdate installed. -/
def cbsPairOnly : Callbacks := ⟨false, false, false, true, false⟩

/-- Two price messages for one instrument carrying the same timestamp
but different snapshots. -/
def cexTieA : PriceSnapshot := ⟨"A", 1/2, 1/2, 1/100, 5⟩

def cexTieB : PriceSnapshot := ⟨"A", 3/5, 3/5, 1/100, 5⟩

/-- A cached snapshot and a stale message older than it. -/
def cexCachedOld : PriceSnapshot := ⟨"A", 11/20, 11/20, 1/100, 5⟩

def cexStaleMsg : PriceSnapshot := ⟨"A", 3/5, 3/5, 1/100, 3⟩

/-- Trace for the pair claims: a single subscription on instrument A
receives a price, then a Pair Binding on A and B is created, then B
receives its first price.  stepA is the state after the A subscription,
stepB after the A price update, stepC after the pair subscription. -/
def pairStepA : ServiceState := (subscribeInstrument initState "A" cbsPriceOnly).1

def pairPriceA : PriceSnapshot := ⟨"A", 62/100, 62/100, 1/100, 1⟩

def pairStepB : ServiceState := (dispatchPrice (fun _ => none) pairStepA pairPriceA).1

def pairStepC : ServiceState :=
  match subscribeMarket pairStepB "A" "B" cbsPairOnly with
  | Except.ok r => r.1
  | Except.error _ => initState

def pairPriceB : PriceSnapshot := ⟨"B", 38/100, 38/100, 1/100, 2⟩

/-- The registry entry created for the pair subscription in pairStepC. -/
def pairEntry : SubEntry := ⟨1, ["A", "B"], some ("A", "B"), cbsPairOnly, SubState.active⟩

/-- State used by the callback-isolation witness: two active
subscriptions on Y1, both with a price handler, the first without an
onError handler, the second with one. -/
def isoSub0 : SubEntry := ⟨0, ["Y1"], none, ⟨true, false, false, false, false⟩, SubState.active⟩

def isoSub1 : SubEntry := ⟨1, ["Y1"], none, ⟨true, false, false, false, true⟩, SubState.active⟩

def isoState : ServiceState := ⟨[isoSub0, isoSub1], [("Y1", 2)], [], [], 2⟩

/-- Both registered handlers raise in the witness dispatch pass. -/
def isoBeh : ℕ → Option String := fun sid =>
  if sid = 0 then some "boom0" else if sid = 1 then some "boom1" else none

def isoMsg : PriceSnapshot := ⟨"Y1", 11/20, 11/20, 1/100, 7⟩

/-- State after the end-to-end scenario unsubscribe: Y1 untracked but
still cached at 0.55. -/
def snapY55 : PriceSnapshot := ⟨"Y1", 11/20, 11/20, 1/100, 10⟩

def droppedState : ServiceState :=
  ⟨[⟨0, ["Y1"], none, cbsPriceOnly, SubState.closed⟩], [("Y1", 0)], [("Y1", snapY55)], [], 1⟩

def msgY60 : InboundMsg := InboundMsg.priceChange ⟨"Y1", 3/5, 3/5, 1/100, 11⟩

/-- Reference counts used by the reconnection witness. -/
def reconState : ServiceState :=
  ⟨[], [("Y1", 1), ("N1", 2), ("X1", 0)], [], [], 3⟩

theorem isMaxIn_iff (l : List PriceSnapshot) (x : PriceSnapshot) :
    isMaxIn l x = true ↔ ∀ q ∈ l, q.timestamp ≤ x.timestamp := by
  simp [isMaxIn, List.all_eq_true]

theorem isMaxIn_dominated (c p : PriceSnapshot) (rest : List PriceSnapshot)
    (h : p.timestamp ≤ c.timestamp) :
    isMaxIn (c :: p :: rest) = isMaxIn (c :: rest) := by
  funext x
  simp only [isMaxIn, List.all_cons]
  by_cases hcx : c.timestamp ≤ x.timestamp
  · have hpx : p.timestamp ≤ x.timestamp := le_trans h hcx
    simp [hcx, hpx]
  · simp [hcx]

theorem isMaxIn_drop_smaller (c p : PriceSnapshot) (rest : List PriceSnapshot)
    (h : c.timestamp ≤ p.timestamp) :
    isMaxIn (c :: p :: rest) = isMaxIn (p :: rest) := by
  funext x
  simp only [isMaxIn, List.all_cons]
  by_cases hpx : p.timestamp ≤ x.timestamp
  · have hcx : c.timestamp ≤ x.timestamp := le_trans h hpx
    simp [hcx, hpx]
  · simp [hpx]

theorem foldl_step1_some (l : List PriceSnapshot) :
    ∀ c, l.foldl step1 (some c) = (c :: l).find? (isMaxIn (c :: l)) := by
  induction l with
  | nil =>
    intro c
    have hc : isMaxIn [c] c = true := by
      rw [isMaxIn_iff]
      intro q hq
      rcases List.mem_singleton.mp hq with rfl
      exact le_refl _
    simp [List.find?, hc]
  | cons p rest ih =>
    intro c
    by_cases h : p.timestamp ≤ c.timestamp
    · have e1 : step1 (some c) p = some c := by simp [step1, h]
      rw [List.foldl_cons, e1, ih c, ← isMaxIn_dominated c p rest h]
      cases hPc : isMaxIn (c :: p :: rest) c with
      | true =>
        have h1 : List.find? (isMaxIn (c :: p :: rest)) (c :: rest) = some c :=
          List.find?_cons_of_pos _ hPc
        have h2 : List.find? (isMaxIn (c :: p :: rest)) (c :: p :: rest) = some c :=
          List.find?_cons_of_pos _ hPc
        rw [h1, h2]
      | false =>
        have hPp : isMaxIn (c :: p :: rest) p = false := by
          cases hv : isMaxIn (c :: p :: rest) p with
          | false => rfl
          | true =>
            exfalso
            have hall := (isMaxIn_iff _ _).mp hv
            have hcle : isMaxIn (c :: p :: rest) c = true := by
              rw [isMaxIn_iff]
              intro q hq
              exact le_trans (hall q hq) h
            rw [hPc] at hcle
            exact Bool.false_ne_true hcle
        have h1 : List.find? (isMaxIn (c :: p :: rest)) (c :: rest) =
            List.find? (isMaxIn (c :: p :: rest)) rest :=
          List.find?_cons_of_neg _ (by simp [hPc])
        have h2 : List.find? (isMaxIn (c :: p :: rest)) (c :: p :: rest) =
            List.find? (isMaxIn (c :: p :: rest)) (p :: rest) :=
          List.find?_cons_of_neg _ (by simp [hPc])
        have h3 : List.find? (isMaxIn (c :: p :: rest)) (p :: rest) =
            List.find? (isMaxIn (c :: p :: rest)) rest :=
          List.find?_cons_of_neg _ (by simp [hPp])
        rw [h1, h2, h3]
    · have hcp : c.timestamp ≤ p.timestamp := le_of_not_le h
      have e1 : step1 (some c) p = some p := by simp [step1, h]
      rw [List.foldl_cons, e1, ih p, ← isMaxIn_drop_smaller c p rest hcp]
      have hPc : isMaxIn (c :: p :: rest) c = false := by
        cases hv : isMaxIn (c :: p :: rest) c with
        | false => rfl
        | true =>
          exfalso
          have hall := (isMaxIn_iff _ _).mp hv
          have hple : p.timestamp ≤ c.timestamp := hall p (by simp)
          exact h hple
      have h2 : List.find? (isMaxIn (c :: p :: rest)) (c :: p :: rest) =
          List.find? (isMaxIn (c :: p :: rest)) (p :: rest) :=
        List.find?_cons_of_neg _ (by simp [hPc])
      rw [h2]

theorem foldl_step1_none (msgs : List PriceSnapshot) :
    msgs.foldl step1 none = firstMaxSnapshot msgs := by
  cases msgs with
  | nil => rfl
  | cons p rest =>
    have e1 : step1 none p = some p := rfl
    rw [List.foldl_cons, e1, foldl_step1_some]
    rfl

theorem alookup_aset_self {α : Type} (k : String) (v : α) (l : List (String × α)) :
    alookup k (aset k v l) = some v := by
  induction l with
  | nil => simp [aset, alookup]
  | cons kv rest ih =>
    by_cases h : kv.1 = k
    · simp [aset, alookup, h]
    · simp [aset, alookup, h, ih]

theorem alookup_aset_other {α : Type} (k k' : String) (v : α) (l : List (String × α))
    (h : k ≠ k') :
    alookup k' (aset k v l) = alookup k' l := by
  induction l with
  | nil => simp [aset, alookup, h]
  | cons kv rest ih =>
    by_cases hk : kv.1 = k
    · have hk' : kv.1 ≠ k' := by rw [hk]; exact h
      simp [aset, alookup, hk, hk', h]
    · by_cases hk' : kv.1 = k'
      · simp [aset, alookup, hk, hk', Ne.symm h]
      · simp [aset, alookup, hk, hk', ih]

theorem alookup_applyPriceUpdate_self (cache : List (String × PriceSnapshot))
    (p : PriceSnapshot) :
    alookup p.assetId (applyPriceUpdate cache p) = step1 (alookup p.assetId cache) p := by
  unfold applyPriceUpdate step1
  cases h : alookup p.assetId cache with
  | none => simp [alookup_aset_self]
  | some old =>
    by_cases hts : p.timestamp ≤ old.timestamp
    · simp [hts, h]
    · simp [hts, alookup_aset_self]

theorem alookup_applyPriceUpdate_other (cache : List (String × PriceSnapshot))
    (p : PriceSnapshot) (i : String) (h : p.assetId ≠ i) :
    alookup i (applyPriceUpdate cache p) = alookup i cache := by
  unfold applyPriceUpdate
  cases halt : alookup p.assetId cache with
  | none => simp [alookup_aset_other _ _ _ _ h]
  | some old =>
    by_cases hts : p.timestamp ≤ old.timestamp
    · simp [hts]
    · simp [hts, alookup_aset_other _ _ _ _ h]

theorem alookup_runCache (i : String) (msgs : List PriceSnapshot) :
    ∀ cache, alookup i (runCache cache msgs) =
      (msgs.filter (fun m => m.assetId == i)).foldl step1 (alookup i cache) := by
  induction msgs with
  | nil => intro cache; simp [runCache]
  | cons p rest ih =>
    intro cache
    by_cases h : p.assetId = i
    · have hfil : (p :: rest).filter (fun m => m.assetId == i) =
          p :: rest.filter (fun m => m.assetId == i) := by
        simp [List.filter_cons, h]
      rw [runCache, List.foldl_cons, hfil]
      show alookup i (runCache (applyPriceUpdate cache p) rest) = _
      rw [ih, List.foldl_cons]
      rw [← h, alookup_applyPriceUpdate_self]
    · have hfil : (p :: rest).filter (fun m => m.assetId == i) =
          rest.filter (fun m => m.assetId == i) := by
        simp [List.filter_cons, h]
      rw [runCache, List.foldl_cons, hfil]
      show alookup i (runCache (applyPriceUpdate cache p) rest) = _
      rw [ih, alookup_applyPriceUpdate_other cache p i h]

/-- C1 (amended): the cache update is monotonic by timestamp per
instrument: a price message whose timestamp is at most the cached
timestamp for its instrument leaves the cache unchanged, and after
processing a whole sequence from an empty cache the cached snapshot of
each instrument is the snapshot of the FIRST message for it whose
timestamp is the maximum seen (a later message that merely ties the
maximum is dropped by the at-most rule). -/
theorem monotonic_cache_law :
    (∀ (cache : List (String × PriceSnapshot)) (p old : PriceSnapshot),
      alookup p.assetId cache = some old → p.timestamp ≤ old.timestamp →
      applyPriceUpdate cache p = cache) ∧
    (∀ (msgs : List PriceSnapshot) (i : String),
      alookup i (runCache [] msgs) =
        firstMaxSnapshot (msgs.filter (fun m => m.assetId == i))) := by
  constructor
  · intro cache p old h hts
    unfold applyPriceUpdate
    rw [h]
    show (if p.timestamp ≤ old.timestamp then cache else aset p.assetId p cache) = cache
    rw [if_pos hts]
  · intro msgs i
    rw [alookup_runCache i msgs []]
    have h0 : alookup i ([] : List (String × PriceSnapshot)) = none := rfl
    rw [h0, foldl_step1_none]

/-- C1 counterexample: two messages for instrument A share the maximum
timestamp 5 with different snapshots.  The cache holds the first of
them, while the claim says it should equal the snapshot of the last
message whose timestamp is the maximum, which is the second. -/
theorem monotonic_cache_law_cex :
    alookup "A" (runCache [] [cexTieA, cexTieB]) = some cexTieA ∧
    lastMaxSnapshot [cexTieA, cexTieB] = some cexTieB ∧
    cexTieA ≠ cexTieB := by
  refine ⟨rfl, rfl, ?_⟩
  norm_num [cexTieA, cexTieB]

/-- C1 witness: the amended law evaluated on concrete inputs. -/
theorem monotonic_cache_law_witness :
    applyPriceUpdate [("A", cexCachedOld)] cexStaleMsg = [("A", cexCachedOld)] ∧
    alookup "A" (runCache [] [cexCachedOld, cexStaleMsg]) =
      firstMaxSnapshot ([cexCachedOld, cexStaleMsg].filter (fun m => m.assetId == "A")) :=
  ⟨monotonic_cache_law.1 [("A", cexCachedOld)] cexStaleMsg cexCachedOld rfl (by decide),
   monotonic_cache_law.2 [cexCachedOld, cexStaleMsg] "A"⟩

/-- C3: subscribeMarket fails synchronously with InvalidArgument when
either instrument identifier is empty or the two coincide, and
otherwise returns a Subscription handle carrying both identifiers,
without raising. -/
theorem subscribeMarket_validation (st : ServiceState) (a b : String) (cbs : Callbacks) :
    ((a = "" ∨ b = "" ∨ a = b) →
      subscribeMarket st a b cbs =
        Except.error (SdkError.invalidArgument
          "instrument ids must be non-empty and distinct")) ∧
    (a ≠ "" → b ≠ "" → a ≠ b →
      ∃ st2 h evs, subscribeMarket st a b cbs = Except.ok (st2, h, evs) ∧
        h.id = st.nextId ∧ h.assetIds = [a, b]) := by
  constructor
  · intro hbad
    unfold subscribeMarket
    rw [if_pos hbad]
  · intro ha hb hab
    unfold subscribeMarket
    rw [if_neg (show ¬(a = "" ∨ b = "" ∨ a = b) by tauto)]
    exact ⟨_, _, _, rfl, rfl, rfl⟩

/-- C3 witness: the validation theorem evaluated at an empty first
identifier and at a valid pair of identifiers. -/
theorem subscribeMarket_validation_witness :
    subscribeMarket initState "" "N1" cbsAll =
      Except.error (SdkError.invalidArgument
        "instrument ids must be non-empty and distinct") ∧
    (∃ st2 h evs, subscribeMarket initState "Y1" "N1" cbsAll = Except.ok (st2, h, evs) ∧
      h.id = initState.nextId ∧ h.assetIds = ["Y1", "N1"]) :=
  ⟨(subscribeMarket_validation initState "" "N1" cbsAll).1 (Or.inl rfl),
   (subscribeMarket_validation initState "Y1" "N1" cbsAll).2
     (by decide) (by decide) (by decide)⟩

/-- C4: upstream registrations are reference counted.  Subscribing to
the same instrument twice and unsubscribing once leaves the instrument
tracked with exactly one outstanding upstream subscribe registration
(one subscribe frame and no unsubscribe frame so far); the second
unsubscribe makes it untracked, and across the whole sequence exactly
one upstream unsubscribe frame is issued. -/
theorem refcount_idempotence (i : String) (cbs : Callbacks) :
    let r1 := subscribeInstrument initState i cbs
    let r2 := subscribeInstrument r1.1 i cbs
    let u1 := unsubscribe r2.1 r1.2.1.id
    let u2 := unsubscribe u1.1 r2.2.1.id
    refCount u1.1 i = 1 ∧
    refCount u2.1 i = 0 ∧
    (r1.2.2 ++ r2.2.2 ++ u1.2).count (Event.frameSubscribe i) = 1 ∧
    (r1.2.2 ++ r2.2.2 ++ u1.2).count (Event.frameUnsubscribe i) = 0 ∧
    (r1.2.2 ++ r2.2.2 ++ u1.2 ++ u2.2).count (Event.frameUnsubscribe i) = 1 := by
  simp [subscribeInstrument, unsubscribe, incRef, decRefs, refCount, markClosed,
    initState, alookup, aset, List.count_cons]

/-- C6: once the local reference count of an instrument is zero, any
further inbound frame for it is dropped silently: dispatch changes
nothing and emits nothing, and getPrice still returns the snapshot
cached before the unsubscribe, since unsubscribing never clears the
price cache. -/
theorem unsubscribed_frames_dropped :
    (∀ st sid, ((unsubscribe st sid).1).priceCache = st.priceCache) ∧
    (∀ (beh : ℕ → Option String) (st : ServiceState) (m : InboundMsg) (i : String),
      msgAsset m = some i → refCount st i = 0 →
      dispatchMsg beh st m = (st, []) ∧
      getPrice (dispatchMsg beh st m).1 i = getPrice st i) := by
  constructor
  · intro st sid
    unfold unsubscribe
    cases h : st.subs.find? (fun e => e.id == sid && e.state == SubState.active) with
    | none => rfl
    | some e => rfl
  · intro beh st m i hm h0
    cases m with
    | priceChange p =>
      simp only [msgAsset, Option.some.injEq] at hm
      subst hm
      simp [dispatchMsg, dispatchPrice, h0]
    | bookChange b =>
      simp only [msgAsset, Option.some.injEq] at hm
      subst hm
      simp [dispatchMsg, dispatchBook, h0]
    | lastTrade t =>
      simp only [msgAsset, Option.some.injEq] at hm
      subst hm
      simp [dispatchMsg, dispatchTrade, h0]
    | reconnected => simp [msgAsset] at hm

/-- C6 witness: the end-to-end scenario state after unsubscribe (Y1
untracked, cached at 0.55); a later price message for Y1 is dropped and
getPrice still answers 0.55. -/
theorem unsubscribed_frames_dropped_witness :
    dispatchMsg (fun _ => none) droppedState msgY60 = (droppedState, []) ∧
    getPrice (dispatchMsg (fun _ => none) droppedState msgY60).1 "Y1" = some snapY55 :=
  have h := unsubscribed_frames_dropped.2 (fun _ => none) droppedState msgY60 "Y1" rfl rfl
  ⟨h.1, h.2.trans rfl⟩

theorem alookup_eq_none_of_not_mem {α : Type} (i : String) (l : List (String × α))
    (h : i ∉ l.map Prod.fst) : alookup i l = none := by
  induction l with
  | nil => rfl
  | cons kv rest ih =>
    simp only [List.map_cons, List.mem_cons] at h
    push_neg at h
    have h1 : kv.1 ≠ i := fun e => h.1 e.symm
    simp [alookup, h1, ih h.2]

theorem alookup_of_mem_nodup {α : Type} (l : List (String × α)) (kv : String × α)
    (hk : (l.map Prod.fst).Nodup) (hm : kv ∈ l) : alookup kv.1 l = some kv.2 := by
  induction l with
  | nil => simp at hm
  | cons kv2 rest ih =>
    simp only [List.map_cons, List.nodup_cons] at hk
    obtain ⟨hnm, hnd⟩ := hk
    rcases List.mem_cons.mp hm with h | h
    · subst h
      simp [alookup]
    · have hkm : kv.1 ∈ rest.map Prod.fst := List.mem_map.mpr ⟨kv, h, rfl⟩
      have hne : kv2.1 ≠ kv.1 := by
        intro e
        rw [e] at hnm
        exact hnm hkm
      simp [alookup, hne, ih hnd h]

theorem count_subscribeFrames (rc : List (String × ℕ)) (i : String)
    (hk : (rc.map Prod.fst).Nodup) :
    (subscribeFrames rc).count (Event.frameSubscribe i) =
      if 0 < (alookup i rc).getD 0 then 1 else 0 := by
  induction rc with
  | nil => simp [subscribeFrames, alookup]
  | cons kv rest ih =>
    simp only [List.map_cons, List.nodup_cons] at hk
    obtain ⟨hnm, hnd⟩ := hk
    by_cases hpos : 0 < kv.2
    · by_cases hik : kv.1 = i
      · subst hik
        have hnone : alookup kv.1 rest = none := alookup_eq_none_of_not_mem _ _ hnm
        simp [subscribeFrames, hpos, alookup, List.count_cons, ih hnd, hnone]
      · have hne : ¬ i = kv.1 := fun e => hik e.symm
        simp [subscribeFrames, hpos, alookup, List.count_cons, ih hnd, hik, hne]
    · have h2 : kv.2 = 0 := Nat.eq_zero_of_not_pos hpos
      by_cases hik : kv.1 = i
      · subst hik
        have hnone : alookup kv.1 rest = none := alookup_eq_none_of_not_mem _ _ hnm
        simp [subscribeFrames, hpos, alookup, ih hnd, hnone, h2]
      · simp [subscribeFrames, hpos, alookup, ih hnd, hik]

theorem mem_subscribeFrames (rc : List (String × ℕ)) (ev : Event)
    (hev : ev ∈ subscribeFrames rc) :
    ∃ kv, kv ∈ rc ∧ ev = Event.frameSubscribe kv.1 ∧ 0 < kv.2 := by
  induction rc with
  | nil => simp [subscribeFrames] at hev
  | cons kv rest ih =>
    by_cases hpos : 0 < kv.2
    · simp only [subscribeFrames, if_pos hpos] at hev
      rcases List.mem_cons.mp hev with h | h
      · exact ⟨kv, List.mem_cons_self _ _, h, hpos⟩
      · obtain ⟨kv2, hm, he, hp⟩ := ih h
        exact ⟨kv2, List.mem_cons_of_mem _ hm, he, hp⟩
    · simp only [subscribeFrames, if_neg hpos] at hev
      obtain ⟨kv2, hm, he, hp⟩ := ih hev
      exact ⟨kv2, List.mem_cons_of_mem _ hm, he, hp⟩

/-- C7: on a Reconnected notification the service re-issues an upstream
subscribe frame exactly once for every instrument it currently tracks
(positive reference count, i.e. every instrument with an active local
Subscription), issues no frame for untracked instruments, and does not
create or alter any local subscription. -/
theorem reconnect_resubscribes_once (st : ServiceState)
    (hk : (st.refCounts.map Prod.fst).Nodup) :
    (handleReconnected st).1 = st ∧
    (∀ i, refCount st i ≠ 0 →
      ((handleReconnected st).2).count (Event.frameSubscribe i) = 1) ∧
    (∀ i, refCount st i = 0 →
      ((handleReconnected st).2).count (Event.frameSubscribe i) = 0) ∧
    (∀ ev ∈ (handleReconnected st).2, ∃ i, ev = Event.frameSubscribe i ∧ refCount st i ≠ 0) := by
  refine ⟨rfl, ?_, ?_, ?_⟩
  · intro i hi
    show (subscribeFrames st.refCounts).count (Event.frameSubscribe i) = 1
    rw [count_subscribeFrames st.refCounts i hk, if_pos]
    unfold refCount at hi
    omega
  · intro i hi
    show (subscribeFrames st.refCounts).count (Event.frameSubscribe i) = 0
    rw [count_subscribeFrames st.refCounts i hk, if_neg]
    unfold refCount at hi
    omega
  · intro ev hev
    obtain ⟨kv, hm, he, hp⟩ := mem_subscribeFrames st.refCounts ev hev
    refine ⟨kv.1, he, ?_⟩
    have hl := alookup_of_mem_nodup st.refCounts kv hk hm
    unfold refCount
    rw [hl]
    simp
    omega

/-- C7 witness: the reconnection theorem evaluated on a concrete state
tracking Y1 once and N1 twice, with X1 untracked. -/
theorem reconnect_resubscribes_once_witness :
    (handleReconnected reconState).1 = reconState ∧
    ((handleReconnected reconState).2).count (Event.frameSubscribe "Y1") = 1 ∧
    ((handleReconnected reconState).2).count (Event.frameSubscribe "N1") = 1 ∧
    ((handleReconnected reconState).2).count (Event.frameSubscribe "X1") = 0 :=
  have h := reconnect_resubscribes_once reconState (by decide)
  ⟨h.1, h.2.1 "Y1" (by decide), h.2.1 "N1" (by decide), h.2.2.1 "X1" rfl⟩

theorem dispatchPrice_events (beh : ℕ → Option String) (st : ServiceState)
    (p : PriceSnapshot) (h0 : ¬ refCount st p.assetId = 0) :
    (dispatchPrice beh st p).2 =
      cbEventsFor beh p (st.subs.filter (subWantsPrice p.assetId)) ++
        pairEventsFor (applyPriceUpdate st.priceCache p) p.assetId st.subs := by
  unfold dispatchPrice
  rw [if_neg h0]

theorem dispatchMsg_preserves (beh : ℕ → Option String) (st : ServiceState)
    (m : InboundMsg) :
    ((dispatchMsg beh st m).1).subs = st.subs ∧
    ((dispatchMsg beh st m).1).refCounts = st.refCounts := by
  cases m with
  | priceChange p =>
    by_cases h0 : refCount st p.assetId = 0 <;>
      simp [dispatchMsg, dispatchPrice, h0]
  | bookChange b =>
    by_cases h0 : refCount st b.assetId = 0 <;>
      simp [dispatchMsg, dispatchBook, h0]
  | lastTrade t =>
    by_cases h0 : refCount st t.assetId = 0 <;>
      simp [dispatchMsg, dispatchTrade, h0]
  | reconnected => exact ⟨rfl, rfl⟩

theorem deliveriesFor_append (i : String) (l1 l2 : List Event) :
    deliveriesFor i (l1 ++ l2) = deliveriesFor i l1 ++ deliveriesFor i l2 :=
  List.filter_append _ _

theorem deliveriesFor_cbEventsFor (i : String) (beh : ℕ → Option String)
    (p : PriceSnapshot) (l : List SubEntry) :
    deliveriesFor i (cbEventsFor beh p l) =
      if p.assetId = i then l.map (fun e => Event.priceCb e.id p) else [] := by
  induction l with
  | nil => simp [cbEventsFor, deliveriesFor]
  | cons e rest ih =>
    cases hbeh : beh e.id with
    | none =>
      by_cases hpi : p.assetId = i <;>
        simp [cbEventsFor, deliveriesFor, deliveryAsset, hbeh, hpi] <;>
        simpa [deliveriesFor, hpi] using ih
    | some m =>
      cases herr : e.callbacks.hasOnError <;>
        by_cases hpi : p.assetId = i <;>
        simp [cbEventsFor, deliveriesFor, deliveryAsset, hbeh, herr, hpi] <;>
        simpa [deliveriesFor, hpi] using ih

theorem deliveriesFor_pairEventsFor (i : String) (cache : List (String × PriceSnapshot))
    (j : String) (l : List SubEntry) :
    deliveriesFor i (pairEventsFor cache j l) = [] := by
  induction l with
  | nil => rfl
  | cons e rest ih =>
    show deliveriesFor i (_ ++ pairEventsFor cache j rest) = []
    rw [deliveriesFor_append, ih, List.append_nil]
    cases hp : e.pair with
    | none => simp [deliveriesFor]
    | some yn =>
      by_cases hc : e.state = SubState.active ∧ (j = yn.1 ∨ j = yn.2) ∧
          e.callbacks.hasOnPairUpdate = true
      · cases h1 : alookup yn.1 cache with
        | none => simp [deliveriesFor, hc, h1]
        | some py =>
          cases h2 : alookup yn.2 cache with
          | none => simp [deliveriesFor, hc, h1, h2]
          | some pn => simp [deliveriesFor, deliveryAsset, hc, h1, h2]
      · simp [deliveriesFor, hc]

theorem deliveriesFor_bookMap (i : String) (b : BookSnapshot) (l : List SubEntry) :
    deliveriesFor i (l.map (fun e => Event.bookCb e.id b)) =
      if b.assetId = i then l.map (fun e => Event.bookCb e.id b) else [] := by
  induction l with
  | nil => simp [deliveriesFor]
  | cons e rest ih =>
    by_cases hbi : b.assetId = i <;>
      simp [deliveriesFor, deliveryAsset, hbi]

theorem deliveriesFor_tradeMap (i : String) (t : TradeEvent) (l : List SubEntry) :
    deliveriesFor i (l.map (fun e => Event.tradeCb e.id t)) =
      if t.assetId = i then l.map (fun e => Event.tradeCb e.id t) else [] := by
  induction l with
  | nil => simp [deliveriesFor]
  | cons e rest ih =>
    by_cases hbi : t.assetId = i <;>
      simp [deliveriesFor, deliveryAsset, hbi]

theorem deliveriesFor_subscribeFrames (i : String) (rc : List (String × ℕ)) :
    deliveriesFor i (subscribeFrames rc) = [] := by
  induction rc with
  | nil => rfl
  | cons kv rest ih =>
    by_cases h : 0 < kv.2
    · simp only [subscribeFrames, if_pos h]
      simpa [deliveriesFor, deliveryAsset] using ih
    · simpa only [subscribeFrames, if_neg h] using ih

theorem deliveriesFor_dispatchMsg (beh : ℕ → Option String) (st : ServiceState)
    (m : InboundMsg) (i : String) :
    deliveriesFor i (dispatchMsg beh st m).2 =
      if msgAsset m = some i then expectedDeliveries st m else [] := by
  cases m with
  | priceChange p =>
    show deliveriesFor i (dispatchPrice beh st p).2 = _
    by_cases h0 : refCount st p.assetId = 0
    · unfold dispatchPrice
      rw [if_pos h0]
      simp [deliveriesFor, msgAsset, expectedDeliveries, h0]
    · rw [dispatchPrice_events beh st p h0, deliveriesFor_append,
        deliveriesFor_cbEventsFor, deliveriesFor_pairEventsFor, List.append_nil]
      simp [msgAsset, expectedDeliveries, h0]
  | bookChange b =>
    show deliveriesFor i (dispatchBook st b).2 = _
    unfold dispatchBook
    by_cases h0 : refCount st b.assetId = 0
    · rw [if_pos h0]
      simp [deliveriesFor, msgAsset, expectedDeliveries, h0]
    · rw [if_neg h0]
      show deliveriesFor i ((st.subs.filter (subWantsBook b.assetId)).map
        (fun e => Event.bookCb e.id b)) = _
      rw [deliveriesFor_bookMap]
      simp [msgAsset, expectedDeliveries, h0]
  | lastTrade t =>
    show deliveriesFor i (dispatchTrade st t).2 = _
    unfold dispatchTrade
    by_cases h0 : refCount st t.assetId = 0
    · rw [if_pos h0]
      simp [deliveriesFor, msgAsset, expectedDeliveries, h0]
    · rw [if_neg h0]
      show deliveriesFor i ((st.subs.filter (subWantsTrade t.assetId)).map
        (fun e => Event.tradeCb e.id t)) = _
      rw [deliveriesFor_tradeMap]
      simp [msgAsset, expectedDeliveries, h0]
  | reconnected =>
    show deliveriesFor i (subscribeFrames st.refCounts) = _
    rw [deliveriesFor_subscribeFrames]
    simp [msgAsset]

theorem expectedDeliveries_congr (st st2 : ServiceState) (hsubs : st2.subs = st.subs)
    (hrc : st2.refCounts = st.refCounts) (m : InboundMsg) :
    expectedDeliveries st2 m = expectedDeliveries st m := by
  cases m <;> simp [expectedDeliveries, refCount, hsubs, hrc]

theorem expectedRun_congr (st st2 : ServiceState) (hsubs : st2.subs = st.subs)
    (hrc : st2.refCounts = st.refCounts) (i : String) (msgs : List InboundMsg) :
    expectedRun st2 i msgs = expectedRun st i msgs := by
  induction msgs with
  | nil => rfl
  | cons m rest ih =>
    show (if msgAsset m = some i then expectedDeliveries st2 m else []) ++
        expectedRun st2 i rest = _
    rw [ih, expectedDeliveries_congr st st2 hsubs hrc m]
    rfl

/-- C8: dispatch preserves per-instrument order.  Over any inbound
stream, the callback deliveries for one instrument are exactly, message
by message in arrival order with no reordering or batching, the fan-out
of each of its messages to the matching active subscriptions in registry
(registration) order, as recorded by the initial registry, which
dispatch never alters. -/
theorem dispatch_order_preserved (beh : ℕ → Option String) (st : ServiceState)
    (msgs : List InboundMsg) (i : String) :
    deliveriesFor i (run beh st msgs).2 = expectedRun st i msgs := by
  induction msgs generalizing st with
  | nil => rfl
  | cons m rest ih =>
    show deliveriesFor i ((dispatchMsg beh st m).2 ++
      (run beh (dispatchMsg beh st m).1 rest).2) = _
    rw [deliveriesFor_append, deliveriesFor_dispatchMsg, ih]
    have hp := dispatchMsg_preserves beh st m
    rw [expectedRun_congr st (dispatchMsg beh st m).1 hp.1 hp.2 i rest]
    rfl

theorem pairCb_not_mem_cbEventsFor (beh : ℕ → Option String) (p : PriceSnapshot)
    (l : List SubEntry) (sid : ℕ) (qy qn s : ℚ) :
    Event.pairCb sid qy qn s ∉ cbEventsFor beh p l := by
  induction l with
  | nil => simp [cbEventsFor]
  | cons e rest ih =>
    intro h
    rcases List.mem_cons.mp h with h | h
    · exact absurd h (by simp)
    · cases hbeh : beh e.id with
      | none =>
        rw [hbeh] at h
        simp only [List.nil_append] at h
        exact ih h
      | some m =>
        rw [hbeh] at h
        rcases List.mem_append.mp h with h | h
        · cases herr : e.callbacks.hasOnError <;> rw [herr] at h <;> simp at h
        · exact ih h

theorem of_mem_cbEventsFor_priceCb (beh : ℕ → Option String) (p : PriceSnapshot)
    (l : List SubEntry) (sid : ℕ) (q : PriceSnapshot)
    (h : Event.priceCb sid q ∈ cbEventsFor beh p l) :
    q = p ∧ ∃ e, e ∈ l ∧ e.id = sid := by
  induction l with
  | nil => simp [cbEventsFor] at h
  | cons e rest ih =>
    rcases List.mem_cons.mp h with h | h
    · have h2 := h
      simp only [Event.priceCb.injEq] at h2
      exact ⟨h2.2, e, List.mem_cons_self _ _, h2.1.symm⟩
    · cases hbeh : beh e.id with
      | none =>
        rw [hbeh] at h
        simp only [List.nil_append] at h
        obtain ⟨hq, e2, hm, hid⟩ := ih h
        exact ⟨hq, e2, List.mem_cons_of_mem _ hm, hid⟩
      | some m =>
        rw [hbeh] at h
        rcases List.mem_append.mp h with h | h
        · cases herr : e.callbacks.hasOnError <;> rw [herr] at h <;> simp at h
        · obtain ⟨hq, e2, hm, hid⟩ := ih h
          exact ⟨hq, e2, List.mem_cons_of_mem _ hm, hid⟩

theorem errorRouting_mem (beh : ℕ → Option String) (p : PriceSnapshot)
    (l : List SubEntry) (e : SubEntry) (he : e ∈ l) (m : String)
    (hbeh : beh e.id = some m) :
    (e.callbacks.hasOnError = true → Event.errorCb e.id m ∈ cbEventsFor beh p l) ∧
    (e.callbacks.hasOnError = false → Event.warn m ∈ cbEventsFor beh p l) := by
  induction l with
  | nil => simp at he
  | cons e2 rest ih =>
    rcases List.mem_cons.mp he with h | h
    · subst h
      constructor
      · intro herr
        show Event.errorCb e.id m ∈ Event.priceCb e.id p :: _
        rw [hbeh, herr]
        simp
      · intro herr
        show Event.warn m ∈ Event.priceCb e.id p :: _
        rw [hbeh, herr]
        simp
    · have hr := ih h
      constructor
      · intro herr
        have hm2 := hr.1 herr
        show Event.errorCb e.id m ∈ Event.priceCb e2.id p :: _
        exact List.mem_cons_of_mem _ (List.mem_append_right _ hm2)
      · intro herr
        have hm2 := hr.2 herr
        show Event.warn m ∈ Event.priceCb e2.id p :: _
        exact List.mem_cons_of_mem _ (List.mem_append_right _ hm2)

theorem filterMap_toPrice_cbEventsFor (beh : ℕ → Option String) (p : PriceSnapshot)
    (l : List SubEntry) :
    (cbEventsFor beh p l).filterMap toPriceDelivery = l.map (fun e => (e.id, p)) := by
  induction l with
  | nil => rfl
  | cons e rest ih =>
    cases hbeh : beh e.id with
    | none => simp [cbEventsFor, hbeh, toPriceDelivery, ih]
    | some m =>
      cases herr : e.callbacks.hasOnError <;>
        simp [cbEventsFor, hbeh, herr, toPriceDelivery, ih]

theorem of_mem_pairEventsFor (cache : List (String × PriceSnapshot)) (j : String)
    (l : List SubEntry) (ev : Event) (hev : ev ∈ pairEventsFor cache j l) :
    ∃ e, e ∈ l ∧ ∃ yn py pn, e.pair = some yn ∧ e.state = SubState.active ∧
      (j = yn.1 ∨ j = yn.2) ∧ e.callbacks.hasOnPairUpdate = true ∧
      alookup yn.1 cache = some py ∧ alookup yn.2 cache = some pn ∧
      ev = Event.pairCb e.id py.price pn.price (py.price + pn.price) := by
  induction l with
  | nil => simp [pairEventsFor] at hev
  | cons e rest ih =>
    rcases List.mem_append.mp hev with h | h
    · cases hp : e.pair with
      | none => simp [hp] at h
      | some yn =>
        simp only [hp] at h
        by_cases hc : e.state = SubState.active ∧ (j = yn.1 ∨ j = yn.2) ∧
            e.callbacks.hasOnPairUpdate = true
        · rw [if_pos hc] at h
          cases h1 : alookup yn.1 cache with
          | none => simp [h1] at h
          | some py =>
            cases h2 : alookup yn.2 cache with
            | none => simp [h1, h2] at h
            | some pn =>
              simp only [h1, h2] at h
              have heq := List.mem_singleton.mp h
              exact ⟨e, List.mem_cons_self _ _, yn, py, pn, hp, hc.1, hc.2.1, hc.2.2,
                h1, h2, heq⟩
        · rw [if_neg hc] at h
          simp at h
    · obtain ⟨e2, hm, rest2⟩ := ih h
      exact ⟨e2, List.mem_cons_of_mem _ hm, rest2⟩

theorem filterMap_toPrice_pairEventsFor (cache : List (String × PriceSnapshot))
    (j : String) (l : List SubEntry) :
    (pairEventsFor cache j l).filterMap toPriceDelivery = [] := by
  rw [List.filterMap_eq_nil_iff]
  intro ev hev
  obtain ⟨e, hm, yn, py, pn, hp, hs, hj, hcb, h1, h2, heq⟩ :=
    of_mem_pairEventsFor cache j l ev hev
  rw [heq]
  rfl

theorem pairEventsFor_mem_of (cache : List (String × PriceSnapshot)) (j : String)
    (l : List SubEntry) (e : SubEntry) (he : e ∈ l) (yn : String × String)
    (py pn : PriceSnapshot) (hp : e.pair = some yn) (hs : e.state = SubState.active)
    (hj : j = yn.1 ∨ j = yn.2) (hcb : e.callbacks.hasOnPairUpdate = true)
    (h1 : alookup yn.1 cache = some py) (h2 : alookup yn.2 cache = some pn) :
    Event.pairCb e.id py.price pn.price (py.price + pn.price) ∈ pairEventsFor cache j l := by
  induction l with
  | nil => simp at he
  | cons e2 rest ih =>
    rcases List.mem_cons.mp he with h | h
    · subst h
      apply List.mem_append_left
      simp only [hp]
      rw [if_pos ⟨hs, hj, hcb⟩]
      simp only [h1, h2]
      simp
    · exact List.mem_append_right _ (ih h)

/-- C5: callback isolation.  In one dispatch pass over the handlers
registered for an instrument, the deliveries are the same whether or not
any handler raises (so one raising handler never prevents a later
registered handler from being invoked for the same update), and every
raise is routed to the onError handler of that subscription when
present and surfaced as a process-wide warning otherwise; dispatch is a
total function, so no failure propagates out of the loop. -/
theorem callback_isolation (st : ServiceState) (p : PriceSnapshot)
    (beh : ℕ → Option String) :
    ((dispatchPrice beh st p).2.filterMap toPriceDelivery =
      (dispatchPrice (fun _ => none) st p).2.filterMap toPriceDelivery) ∧
    (∀ e ∈ st.subs, subWantsPrice p.assetId e = true → refCount st p.assetId ≠ 0 →
      ∀ m, beh e.id = some m →
        (e.callbacks.hasOnError = true → Event.errorCb e.id m ∈ (dispatchPrice beh st p).2) ∧
        (e.callbacks.hasOnError = false → Event.warn m ∈ (dispatchPrice beh st p).2)) := by
  constructor
  · by_cases h0 : refCount st p.assetId = 0
    · simp [dispatchPrice, h0]
    · rw [dispatchPrice_events beh st p h0, dispatchPrice_events (fun _ => none) st p h0,
        List.filterMap_append, List.filterMap_append,
        filterMap_toPrice_cbEventsFor, filterMap_toPrice_cbEventsFor,
        filterMap_toPrice_pairEventsFor]
  · intro e he hw h0 m hbeh
    rw [dispatchPrice_events beh st p h0]
    have hmem : e ∈ st.subs.filter (subWantsPrice p.assetId) :=
      List.mem_filter.mpr ⟨he, hw⟩
    have hr := errorRouting_mem beh p _ e hmem m hbeh
    exact ⟨fun herr => List.mem_append_left _ (hr.1 herr),
      fun herr => List.mem_append_left _ (hr.2 herr)⟩

/-- C5 witness: two price subscriptions on Y1 whose handlers both raise;
the deliveries are unchanged, the first failure is surfaced as a warning
(no onError handler), the second routed to its onError handler. -/
theorem callback_isolation_witness :
    ((dispatchPrice isoBeh isoState isoMsg).2.filterMap toPriceDelivery =
      (dispatchPrice (fun _ => none) isoState isoMsg).2.filterMap toPriceDelivery) ∧
    Event.warn "boom0" ∈ (dispatchPrice isoBeh isoState isoMsg).2 ∧
    Event.errorCb 1 "boom1" ∈ (dispatchPrice isoBeh isoState isoMsg).2 :=
  have h := callback_isolation isoState isoMsg isoBeh
  ⟨h.1,
   (h.2 isoSub0 (by decide) (by decide) (by decide) "boom0" rfl).2 rfl,
   (h.2 isoSub1 (by decide) (by decide) (by decide) "boom1" rfl).1 rfl⟩

/-- C2 (amended): for a subscription holding a Pair Binding on
instruments y and n, a price update on either side emits no pair event
for that subscription while either side lacks a cached Price Snapshot
after the update, and once both sides are cached it emits, for every
active subscription holding the binding with a pair handler, the pair
event with spread = priceYes + priceNo read from the cache. -/
theorem pair_requires_both_cached (st : ServiceState) (beh : ℕ → Option String)
    (p : PriceSnapshot) (e : SubEntry) (y n : String)
    (hids : (st.subs.map SubEntry.id).Nodup)
    (he : e ∈ st.subs) (hpair : e.pair = some (y, n))
    (hside : p.assetId = y ∨ p.assetId = n)
    (htracked : refCount st p.assetId ≠ 0) :
    (alookup y (applyPriceUpdate st.priceCache p) = none ∨
        alookup n (applyPriceUpdate st.priceCache p) = none →
      ∀ qy qn s, Event.pairCb e.id qy qn s ∉ (dispatchPrice beh st p).2) ∧
    (∀ sy sn, alookup y (applyPriceUpdate st.priceCache p) = some sy →
      alookup n (applyPriceUpdate st.priceCache p) = some sn →
      e.state = SubState.active → e.callbacks.hasOnPairUpdate = true →
      Event.pairCb e.id sy.price sn.price (sy.price + sn.price) ∈
        (dispatchPrice beh st p).2) := by
  constructor
  · intro hnone qy qn s hmem
    rw [dispatchPrice_events beh st p htracked] at hmem
    rcases List.mem_append.mp hmem with h | h
    · exact pairCb_not_mem_cbEventsFor beh p _ e.id qy qn s h
    · obtain ⟨e2, hm2, yn, py, pn, hp2, hs2, hj2, hcb2, h1, h2, heq⟩ :=
        of_mem_pairEventsFor _ _ _ _ h
      simp only [Event.pairCb.injEq] at heq
      have hee : e2 = e :=
        List.inj_on_of_nodup_map hids hm2 he heq.1.symm
      rw [hee] at hp2
      have hyn : (y, n) = yn := Option.some.inj (hpair.symm.trans hp2)
      rcases hnone with hny | hnn
      · rw [← hyn] at h1
        rw [hny] at h1
        exact Option.noConfusion h1
      · rw [← hyn] at h2
        rw [hnn] at h2
        exact Option.noConfusion h2
  · intro sy sn h1 h2 hs hcb
    rw [dispatchPrice_events beh st p htracked]
    exact List.mem_append_right _
      (pairEventsFor_mem_of _ _ _ e he (y, n) sy sn hpair hs hside hcb h1 h2)

/-- C2 counterexample to the claim as stated: instrument A is cached
before the Pair Binding on (A, B) is created (pairStepB holds the A
snapshot, and creating the binding in pairStepC leaves the cache
untouched), so after creation only side B ever receives a Price
Snapshot; yet that single B update already invokes onPairUpdate, with
spread 0.62 + 0.38 = 1.  The fire condition reads the cache and is not
scoped to updates received since the binding was created. -/
theorem pair_requires_both_cached_cex :
    alookup "A" pairStepB.priceCache = some pairPriceA ∧
    pairStepC.priceCache = pairStepB.priceCache ∧
    Event.pairCb pairEntry.id pairPriceA.price pairPriceB.price
        (pairPriceA.price + pairPriceB.price) ∈
      (dispatchPrice (fun _ => none) pairStepC pairPriceB).2 ∧
    pairPriceA.price + pairPriceB.price = 1 := by
  refine ⟨rfl, rfl, ?_, ?_⟩
  · have hevs : (dispatchPrice (fun _ => none) pairStepC pairPriceB).2 =
        [Event.pairCb pairEntry.id pairPriceA.price pairPriceB.price
          (pairPriceA.price + pairPriceB.price)] := rfl
    rw [hevs]
    exact List.mem_singleton.mpr rfl
  · norm_num [pairPriceA, pairPriceB]

/-- C2 witness: in pairStepC side B is not yet cached, so a further A
update emits no pair event for the binding; the first B update then
emits the pair event with spread read from both cached sides. -/
theorem pair_requires_both_cached_witness :
    (∀ qy qn s, Event.pairCb pairEntry.id qy qn s ∉
      (dispatchPrice (fun _ => none) pairStepC
        ⟨"A", 63/100, 63/100, 1/100, 2⟩).2) ∧
    Event.pairCb pairEntry.id pairPriceA.price pairPriceB.price
        (pairPriceA.price + pairPriceB.price) ∈
      (dispatchPrice (fun _ => none) pairStepC pairPriceB).2 :=
  have h1 := pair_requires_both_cached pairStepC (fun _ => none)
    ⟨"A", 63/100, 63/100, 1/100, 2⟩ pairEntry "A" "B"
    (by decide) (by decide) rfl (Or.inl rfl) (by decide)
  have h2 := pair_requires_both_cached pairStepC (fun _ => none)
    pairPriceB pairEntry "A" "B"
    (by decide) (by decide) rfl (Or.inr rfl) (by decide)
  ⟨h1.1 (Or.inr rfl), h2.2 pairPriceA pairPriceB rfl rfl rfl rfl⟩

/-- C9 counterexample: the subscription handle of the source example
exposes assetIds, not instrumentIds as the claim states, and the
onPriceUpdate handler receives a single update record rather than five
positional arguments. -/
theorem subscribe_interface_shape_cex :
    subscriptionHandleFields ≠ subscriptionHandleFields_claim ∧
    "assetIds" ∈ subscriptionHandleFields ∧
    "assetIds" ∉ subscriptionHandleFields_claim ∧
    onPriceUpdateParamCount ≠ onPriceUpdateParamCount_claim := by
  decide

/-- C9 (amended): subscribeMarket returns a Subscription handle whose id
is the next registration id and whose assetIds field is the ordered
sequence of the two subscribed instruments; the five named callbacks
are optional and each receives a single update record, and an absent
callback receives no dispatch: with no onPriceUpdate installed no price
callback is ever delivered to the new subscription, and with no
onPairUpdate installed no pair event is. -/
theorem subscribe_interface_shape (st : ServiceState) (a b : String) (cbs : Callbacks)
    (st2 : ServiceState) (h : Subscription) (evs : List Event)
    (hok : subscribeMarket st a b cbs = Except.ok (st2, h, evs)) (hwf : WfIds st) :
    h.id = st.nextId ∧ h.assetIds = [a, b] ∧
    (cbs.hasOnPriceUpdate = false →
      ∀ (beh : ℕ → Option String) (p q : PriceSnapshot),
        Event.priceCb h.id q ∉ (dispatchPrice beh st2 p).2) ∧
    (cbs.hasOnPairUpdate = false →
      ∀ (beh : ℕ → Option String) (p : PriceSnapshot) (qy qn s : ℚ),
        Event.pairCb h.id qy qn s ∉ (dispatchPrice beh st2 p).2) := by
  unfold subscribeMarket at hok
  by_cases hg : a = "" ∨ b = "" ∨ a = b
  · rw [if_pos hg] at hok
    exact absurd hok (by simp)
  · rw [if_neg hg] at hok
    simp only [Except.ok.injEq, Prod.mk.injEq] at hok
    obtain ⟨hst2, hh, hevs⟩ := hok
    subst hst2
    subst hh
    refine ⟨rfl, rfl, ?_, ?_⟩
    · intro hcb beh p q hmem
      by_cases h0 : refCount { st with
          subs := st.subs ++ [⟨st.nextId, [a, b], some (a, b), cbs, SubState.active⟩],
          refCounts := (incRef (incRef st.refCounts a).1 b).1,
          nextId := st.nextId + 1 } p.assetId = 0
      · unfold dispatchPrice at hmem
        rw [if_pos h0] at hmem
        simp at hmem
      · rw [dispatchPrice_events _ _ _ h0] at hmem
        rcases List.mem_append.mp hmem with hm | hm
        · obtain ⟨hq, e2, hm2, hid⟩ := of_mem_cbEventsFor_priceCb _ _ _ _ _ hm
          have hm3 := List.mem_filter.mp hm2
          have hid2 : e2.id = st.nextId := hid
          rcases List.mem_append.mp hm3.1 with hm4 | hm4
          · have hlt := hwf e2 hm4
            rw [hid2] at hlt
            exact lt_irrefl _ hlt
          · have he2 : e2 = ⟨st.nextId, [a, b], some (a, b), cbs, SubState.active⟩ :=
              List.mem_singleton.mp hm4
            have hbool := hm3.2
            rw [he2] at hbool
            simp [subWantsPrice, hcb] at hbool
        · obtain ⟨e2, hm2, yn, py, pn, hp2, hs2, hj2, hcb2, hl1, hl2, heq⟩ :=
            of_mem_pairEventsFor _ _ _ _ hm
          exact Event.noConfusion heq
    · intro hcb beh p qy qn s hmem
      by_cases h0 : refCount { st with
          subs := st.subs ++ [⟨st.nextId, [a, b], some (a, b), cbs, SubState.active⟩],
          refCounts := (incRef (incRef st.refCounts a).1 b).1,
          nextId := st.nextId + 1 } p.assetId = 0
      · unfold dispatchPrice at hmem
        rw [if_pos h0] at hmem
        simp at hmem
      · rw [dispatchPrice_events _ _ _ h0] at hmem
        rcases List.mem_append.mp hmem with hm | hm
        · exact pairCb_not_mem_cbEventsFor _ _ _ _ _ _ _ hm
        · obtain ⟨e2, hm2, yn, py, pn, hp2, hs2, hj2, hcb2, hl1, hl2, heq⟩ :=
            of_mem_pairEventsFor _ _ _ _ hm
          simp only [Event.pairCb.injEq] at heq
          have hid2 : e2.id = st.nextId := heq.1.symm
          rcases List.mem_append.mp hm2 with hm4 | hm4
          · have hlt := hwf e2 hm4
            rw [hid2] at hlt
            exact lt_irrefl _ hlt
          · have he2 : e2 = ⟨st.nextId, [a, b], some (a, b), cbs, SubState.active⟩ :=
              List.mem_singleton.mp hm4
            rw [he2] at hcb2
            rw [show (⟨st.nextId, [a, b], some (a, b), cbs,
              SubState.active⟩ : SubEntry).callbacks = cbs from rfl] at hcb2
            rw [hcb] at hcb2
            exact Bool.noConfusion hcb2

/-- C9 witness: subscribing Y1 and N1 with only onPriceUpdate installed
yields the handle with id 0 and assetIds as the ordered pair, and the
absent onPairUpdate receives no dispatch on a Y1 price update. -/
theorem subscribe_interface_shape_witness :
    (⟨0, ["Y1", "N1"]⟩ : Subscription).id = initState.nextId ∧
    (⟨0, ["Y1", "N1"]⟩ : Subscription).assetIds = ["Y1", "N1"] ∧
    ∀ (qy qn s : ℚ), Event.pairCb (0 : ℕ) qy qn s ∉
      (dispatchPrice (fun _ => none)
        ⟨[⟨0, ["Y1", "N1"], some ("Y1", "N1"), cbsPriceOnly, SubState.active⟩],
          [("Y1", 1), ("N1", 1)], [], [], 1⟩
        ⟨"Y1", 1/2, 1/2, 1/100, 1⟩).2 :=
  have h := subscribe_interface_shape initState "Y1" "N1" cbsPriceOnly
    ⟨[⟨0, ["Y1", "N1"], some ("Y1", "N1"), cbsPriceOnly, SubState.active⟩],
      [("Y1", 1), ("N1", 1)], [], [], 1⟩
    ⟨0, ["Y1", "N1"]⟩ [Event.frameSubscribe "Y1", Event.frameSubscribe "N1"]
    rfl (fun e he => absurd he (List.not_mem_nil e))
  ⟨h.1, h.2.1, fun qy qn s =>
    h.2.2.2 rfl (fun _ => none) ⟨"Y1", 1/2, 1/2, 1/100, 1⟩ qy qn s⟩

/-- C10: subscription establishment is asynchronous at the public
interface.  subscribeMarket returns a promise; resolving it yields the
Subscription handle with its id and ordered asset list, and the
unsubscribe operation returns a promise whose resolution completes the
teardown, leaving the subscription Closed. -/
theorem async_subscribe_handle (a b : String) (cbs : Callbacks)
    (ha : a ≠ "") (hb : b ≠ "") (hab : a ≠ b) :
    ∃ st2 evs, (subscribeMarketAsync initState a b cbs).await =
        Except.ok (st2, (⟨0, [a, b]⟩ : Subscription), evs) ∧
      ∀ e ∈ ((unsubscribeAsync st2 0).await).1.subs, e.state = SubState.closed := by
  refine ⟨⟨[⟨0, [a, b], some (a, b), cbs, SubState.active⟩], [(a, 1), (b, 1)], [], [], 1⟩,
    [Event.frameSubscribe a, Event.frameSubscribe b], ?_, ?_⟩
  · show subscribeMarket initState a b cbs = _
    unfold subscribeMarket
    rw [if_neg (show ¬(a = "" ∨ b = "" ∨ a = b) by tauto)]
    simp [incRef, alookup, aset, initState, hab]
  · intro e he
    show e.state = SubState.closed
    simp only [Promise.await, unsubscribeAsync] at he
    simp [unsubscribe, markClosed, decRefs, alookup, aset, hab] at he
    rw [he]

/-- C10 witness: the asynchronous round trip evaluated at a concrete
market pair. -/
theorem async_subscribe_handle_witness :
    ∃ st2 evs, (subscribeMarketAsync initState "Y1" "N1" cbsAll).await =
        Except.ok (st2, (⟨0, ["Y1", "N1"]⟩ : Subscription), evs) ∧
      ∀ e ∈ ((unsubscribeAsync st2 0).await).1.subs, e.state = SubState.closed :=
  async_subscribe_handle "Y1" "N1" cbsAll (by decide) (by decide) (by decide)

end PolySdk
